import Mathlib

/-!
Verification of the counter reducer from
`src/reducers/counterReducer.js`:

  export default function counterReducer(
    state = { clicks: 0 },
    action
  ) {
    switch (action.type) {
      case "INCREASE_COUNT":
        return { clicks: state.clicks + 1 }
      default:
        return state;
    }
  }

We shallowly embed the JavaScript values the reducer can touch.  A value
is `undefined`, `null`, `NaN`, an integer number, a string, a boolean,
or an object given by its ordered field list.  Property access on
`undefined` or `null` throws a TypeError, which we model with `Except`;
property access on a primitive yields `undefined` (boxing).
-/

/-- JavaScript values, as far as the counter reducer can observe them. -/
inductive JSVal where
  | undef
  | null
  | nan
  | num (n : Int)
  | str (s : String)
  | bool (b : Bool)
  | obj (fields : List (String × JSVal))

/-- First-match field lookup in an object literal; a missing field reads
as `undefined`, as in JavaScript. -/
def lookupField : List (String × JSVal) → String → JSVal
  | [], _ => JSVal.undef
  | (k, v) :: rest, name => if k = name then v else lookupField rest name

/-- Property access `v[name]`.  Throws (models the JavaScript TypeError)
on `undefined` and `null`; primitives have no own properties and read as
`undefined`. -/
def jsGetField : JSVal → String → Except String JSVal
  | JSVal.undef, _ => Except.error "TypeError"
  | JSVal.null, _ => Except.error "TypeError"
  | JSVal.obj l, name => Except.ok (lookupField l name)
  | _, _ => Except.ok JSVal.undef

/-- The JavaScript expression `v + 1` for each shape of `v` the reducer
can encounter in `state.clicks + 1`. -/
def jsPlusOne : JSVal → JSVal
  | JSVal.num n => JSVal.num (n + 1)
  | JSVal.str s => JSVal.str (s ++ "1")
  | JSVal.bool b => JSVal.num ((if b then 1 else 0) + 1)
  | JSVal.null => JSVal.num 1
  | JSVal.undef => JSVal.nan
  | JSVal.nan => JSVal.nan
  | JSVal.obj _ => JSVal.str "[object Object]1"

/-- The ES2015 default parameter `state = { clicks: 0 }`: it replaces
the argument exactly when the caller passed `undefined`. -/
def seedState : JSVal → JSVal
  | JSVal.undef => JSVal.obj [("clicks", JSVal.num 0)]
  | s => s

/-- The strict-equality test the `switch` performs between `action.type`
and the case label `"INCREASE_COUNT"`. -/
def isIncreaseType : JSVal → Bool
  | JSVal.str s => s = "INCREASE_COUNT"
  | _ => false

/-- The counter reducer of `src/reducers/counterReducer.js`.  Reads
`action.type` (which can throw), and on the `INCREASE_COUNT` case reads
`state.clicks` (which can throw for a `null` state) and returns the
fresh object literal `{ clicks: state.clicks + 1 }`; on the default
branch it returns the (possibly seeded) input state unchanged. -/
def counterReducer (state action : JSVal) : Except String JSVal :=
  match jsGetField action "type" with
  | Except.error e => Except.error e
  | Except.ok ty =>
    if isIncreaseType ty then
      match jsGetField (seedState state) "clicks" with
      | Except.error e => Except.error e
      | Except.ok c => Except.ok (JSVal.obj [("clicks", jsPlusOne c)])
    else Except.ok (seedState state)

/-- The init-sentinel action a store dispatches once at construction. -/
def initAction : JSVal := JSVal.obj [("type", JSVal.str "@@INIT")]

/-- The action `{type: "INCREASE_COUNT"}`. -/
def incAction : JSVal := JSVal.obj [("type", JSVal.str "INCREASE_COUNT")]

/-- N-fold iteration of the reducer on `{type: "INCREASE_COUNT"}`,
starting from the state the reducer seeds for an undefined argument. -/
def applyInc : Nat → Except String JSVal
  | 0 => counterReducer JSVal.undef initAction
  | n + 1 =>
    match applyInc n with
    | Except.ok s => counterReducer s incAction
    | Except.error e => Except.error e

/-- Dispatching a list of actions in order from a starting state, the
way a store folds the reducer over dispatches. -/
def runActions (s : JSVal) : List JSVal → Except String JSVal
  | [] => Except.ok s
  | a :: rest =>
    match counterReducer s a with
    | Except.ok s2 => runActions s2 rest
    | Except.error e => Except.error e

/-!
A second, heap-explicit embedding of the same reducer, used for the
frame property: object identity and allocation are observable, so "the
input state is never mutated in place" and "the INCREASE_COUNT branch
returns a fresh object" become provable statements about heap cells.
-/

/-- Heap-allocated JavaScript values: like `JSVal`, but an object is a
reference into an explicit heap. -/
inductive HVal where
  | undef
  | null
  | nan
  | num (n : Int)
  | str (s : String)
  | bool (b : Bool)
  | ref (r : Nat)

/-- A heap: the field lists of all allocated objects, in allocation
order. -/
abbrev Heap := List (List (String × HVal))

/-- First-match field lookup in an allocated object. -/
def lookupFieldH : List (String × HVal) → String → HVal
  | [], _ => HVal.undef
  | (k, v) :: rest, name => if k = name then v else lookupFieldH rest name

/-- Property access under heap semantics: throws on `undefined` and
`null`, dereferences an object, and reads `undefined` off primitives. -/
def getFieldH (h : Heap) : HVal → String → Except String HVal
  | HVal.undef, _ => Except.error "TypeError"
  | HVal.null, _ => Except.error "TypeError"
  | HVal.ref r, name =>
    match h.get? r with
    | some flds => Except.ok (lookupFieldH flds name)
    | none => Except.ok HVal.undef
  | _, _ => Except.ok HVal.undef

/-- The JavaScript expression `v + 1` under heap semantics. -/
def hPlusOne : HVal → HVal
  | HVal.num n => HVal.num (n + 1)
  | HVal.str s => HVal.str (s ++ "1")
  | HVal.bool b => HVal.num ((if b then 1 else 0) + 1)
  | HVal.null => HVal.num 1
  | HVal.undef => HVal.nan
  | HVal.nan => HVal.nan
  | HVal.ref _ => HVal.str "[object Object]1"

/-- The strict-equality test of the `switch` under heap semantics. -/
def isIncreaseTypeH : HVal → Bool
  | HVal.str s => s = "INCREASE_COUNT"
  | _ => false

/-- The default parameter `state = { clicks: 0 }` under heap semantics:
an undefined state allocates a fresh object at the end of the heap. -/
def seedStateH (h : Heap) : HVal → Heap × HVal
  | HVal.undef => (h ++ [[("clicks", HVal.num 0)]], HVal.ref h.length)
  | s => (h, s)

/-- The counter reducer under heap semantics.  The object literal
`{ clicks: state.clicks + 1 }` on the INCREASE_COUNT branch allocates a
fresh cell; no existing heap cell is ever written. -/
def counterReducerH (h : Heap) (state action : HVal) :
    Except String (Heap × HVal) :=
  match getFieldH (seedStateH h state).1 action "type" with
  | Except.error e => Except.error e
  | Except.ok ty =>
    if isIncreaseTypeH ty then
      match getFieldH (seedStateH h state).1 (seedStateH h state).2 "clicks" with
      | Except.error e => Except.error e
      | Except.ok c =>
        Except.ok ((seedStateH h state).1 ++ [[("clicks", hPlusOne c)]],
          HVal.ref (seedStateH h state).1.length)
    else Except.ok (seedStateH h state)

/-! Basic lemmas about the embedding. -/

theorem seedState_ne_undef (s : JSVal) (h : s ≠ JSVal.undef) :
    seedState s = s := by
  cases s <;> first | rfl | exact absurd rfl h

theorem isIncreaseType_eq_true (ty : JSVal) :
    isIncreaseType ty = true ↔ ty = JSVal.str "INCREASE_COUNT" := by
  cases ty <;> simp [isIncreaseType]

theorem isIncreaseType_eq_false (ty : JSVal)
    (h : ty ≠ JSVal.str "INCREASE_COUNT") : isIncreaseType ty = false := by
  cases hb : isIncreaseType ty
  · rfl
  · exact absurd ((isIncreaseType_eq_true ty).mp hb) h

theorem counterReducer_default (s a ty : JSVal)
    (hta : jsGetField a "type" = Except.ok ty)
    (hne : ty ≠ JSVal.str "INCREASE_COUNT") :
    counterReducer s a = Except.ok (seedState s) := by
  simp [counterReducer, hta, isIncreaseType_eq_false ty hne]

theorem counterReducer_inc_clicks (s a : JSVal) (k : Int)
    (hta : jsGetField a "type" = Except.ok (JSVal.str "INCREASE_COUNT"))
    (hck : jsGetField (seedState s) "clicks" = Except.ok (JSVal.num k)) :
    counterReducer s a = Except.ok (JSVal.obj [("clicks", JSVal.num (k + 1))]) := by
  simp [counterReducer, hta, isIncreaseType, hck, jsPlusOne]

theorem jsGetField_num_is_obj (s : JSVal) (name : String) (n : Int)
    (h : jsGetField s name = Except.ok (JSVal.num n)) :
    ∃ l, s = JSVal.obj l := by
  cases s <;> simp_all [jsGetField]

example : counterReducer JSVal.undef initAction
    = Except.ok (JSVal.obj [("clicks", JSVal.num 0)]) := rfl

example : counterReducer (JSVal.obj [("clicks", JSVal.num 0)]) incAction
    = Except.ok (JSVal.obj [("clicks", JSVal.num 1)]) := rfl

/-! Claim theorems. -/

/-- C1: starting from the state the reducer computes for an undefined
state argument (clicks = 0), applying the reducer N times with the
action `{type: "INCREASE_COUNT"}` yields a state whose clicks field is
the initial clicks value plus N. -/
theorem counterReducer_increase_count_adds_n :
    applyInc 0 = Except.ok (JSVal.obj [("clicks", JSVal.num 0)]) ∧
    ∀ N : Nat,
      applyInc N = Except.ok (JSVal.obj [("clicks", JSVal.num (0 + N))]) := by
  refine ⟨rfl, ?_⟩
  intro N
  induction N with
  | zero => rfl
  | succ n ih =>
    have h1 : jsGetField incAction "type"
        = Except.ok (JSVal.str "INCREASE_COUNT") := rfl
    have h2 : jsGetField (seedState (JSVal.obj [("clicks", JSVal.num (0 + n))]))
        "clicks" = Except.ok (JSVal.num (0 + n)) := rfl
    show (match applyInc n with
      | Except.ok s => counterReducer s incAction
      | Except.error e => Except.error e) = _
    rw [ih]
    show counterReducer (JSVal.obj [("clicks", JSVal.num (0 + n))]) incAction = _
    rw [counterReducer_inc_clicks _ _ _ h1 h2]
    congr 2

theorem counterReducer_increase_count_adds_n_witness :
    applyInc 3 = Except.ok (JSVal.obj [("clicks", JSVal.num 3)]) := by
  simpa using counterReducer_increase_count_adds_n.2 3

/-- C2: for every state (a state is a defined value; `undefined` is the
absence of one and triggers the default-parameter seeding instead) and
every action whose type discriminator exists but is not the string
"INCREASE_COUNT" — including a missing discriminator, which reads as
`undefined`, and non-string discriminators — the reducer returns the
input state unchanged: the identity law of the default branch. -/
theorem counterReducer_default_identity (s a ty : JSVal)
    (hs : s ≠ JSVal.undef)
    (hta : jsGetField a "type" = Except.ok ty)
    (hne : ty ≠ JSVal.str "INCREASE_COUNT") :
    counterReducer s a = Except.ok s := by
  rw [counterReducer_default s a ty hta hne, seedState_ne_undef s hs]

theorem counterReducer_default_identity_witness :
    counterReducer (JSVal.obj [("clicks", JSVal.num 5)])
        (JSVal.obj [("type", JSVal.str "DECREASE_COUNT")])
      = Except.ok (JSVal.obj [("clicks", JSVal.num 5)]) :=
  counterReducer_default_identity _ _ (JSVal.str "DECREASE_COUNT")
    (fun h => JSVal.noConfusion h) rfl (fun h => by simp at h)

/-- C3: invoking the reducer with an undefined state argument and any
init-sentinel action (readable type field, not "INCREASE_COUNT")
returns the record `{clicks: 0}`: the seed state of a fresh store. -/
theorem counterReducer_undefined_seeds_clicks_zero (a ty : JSVal)
    (hta : jsGetField a "type" = Except.ok ty)
    (hne : ty ≠ JSVal.str "INCREASE_COUNT") :
    counterReducer JSVal.undef a = Except.ok (JSVal.obj [("clicks", JSVal.num 0)]) :=
  counterReducer_default JSVal.undef a ty hta hne

theorem counterReducer_undefined_seeds_clicks_zero_witness :
    counterReducer JSVal.undef initAction
      = Except.ok (JSVal.obj [("clicks", JSVal.num 0)]) :=
  counterReducer_undefined_seeds_clicks_zero initAction (JSVal.str "@@INIT")
    rfl (fun h => by simp at h)

/-- C4: the concrete scenario: the seed state is `{clicks: 0}`; one
`INCREASE_COUNT` dispatch yields `{clicks: 1}`; a subsequent unhandled
`DECREASE_COUNT` dispatch leaves the state at `{clicks: 1}`. -/
theorem counterReducer_concrete_scenario :
    counterReducer JSVal.undef initAction
        = Except.ok (JSVal.obj [("clicks", JSVal.num 0)]) ∧
    counterReducer (JSVal.obj [("clicks", JSVal.num 0)]) incAction
        = Except.ok (JSVal.obj [("clicks", JSVal.num 1)]) ∧
    counterReducer (JSVal.obj [("clicks", JSVal.num 1)])
        (JSVal.obj [("type", JSVal.str "DECREASE_COUNT")])
        = Except.ok (JSVal.obj [("clicks", JSVal.num 1)]) :=
  ⟨rfl, rfl, rfl⟩

/-! Helper lemmas for the heap-explicit embedding. -/

theorem getq_append {α : Type} (l t : List α) (r : Nat) (hr : r < l.length) :
    (l ++ t).get? r = l.get? r := by
  induction l generalizing r with
  | nil => exact absurd hr (Nat.not_lt_zero r)
  | cons x xs ih =>
    cases r with
    | zero => rfl
    | succ rr => exact ih rr (Nat.lt_of_succ_lt_succ hr)

theorem getq_some_lt {α : Type} (l : List α) (r : Nat) (x : α)
    (h : l.get? r = some x) : r < l.length := by
  induction l generalizing r with
  | nil => exact absurd h (by simp)
  | cons y ys ih =>
    cases r with
    | zero => exact Nat.succ_pos _
    | succ rr => exact Nat.succ_lt_succ (ih rr h)

theorem seedStateH_fst (h : Heap) (s : HVal) :
    ∃ t, (seedStateH h s).1 = h ++ t := by
  cases s <;>
    first
      | exact ⟨[[("clicks", HVal.num 0)]], rfl⟩
      | exact ⟨[], (List.append_nil h).symm⟩

theorem getFieldH_append_inc (h t : Heap) (a : HVal)
    (hta : getFieldH h a "type" = Except.ok (HVal.str "INCREASE_COUNT")) :
    getFieldH (h ++ t) a "type" = Except.ok (HVal.str "INCREASE_COUNT") := by
  cases a with
  | ref r =>
    cases hg : h.get? r with
    | some flds =>
      have hlt := getq_some_lt h r flds hg
      simp only [getFieldH, hg] at hta
      simp only [getFieldH, getq_append h t r hlt, hg]
      exact hta
    | none =>
      rw [List.get?_eq_getElem?] at hg
      simp [getFieldH, hg] at hta
  | undef => simp [getFieldH] at hta
  | null => simp [getFieldH] at hta
  | nan => simp [getFieldH] at hta
  | num n => simp [getFieldH] at hta
  | str s2 => simp [getFieldH] at hta
  | bool b => simp [getFieldH] at hta

theorem counterReducer_step_nonneg (s a r : JSVal) (n : Int)
    (hs : jsGetField s "clicks" = Except.ok (JSVal.num n)) (hn : 0 ≤ n)
    (hr : counterReducer s a = Except.ok r) :
    ∃ m, jsGetField r "clicks" = Except.ok (JSVal.num m) ∧ 0 ≤ m := by
  obtain ⟨l, rfl⟩ := jsGetField_num_is_obj s "clicks" n hs
  cases hta : jsGetField a "type" with
  | error e => simp [counterReducer, hta] at hr
  | ok ty =>
    cases hinc : isIncreaseType ty with
    | false =>
      simp [counterReducer, hta, hinc, seedState] at hr
      exact hr ▸ ⟨n, hs, hn⟩
    | true =>
      have hck : jsGetField (seedState (JSVal.obj l)) "clicks"
          = Except.ok (JSVal.num n) := hs
      rw [counterReducer_inc_clicks (JSVal.obj l) a n
        ((isIncreaseType_eq_true ty).mp hinc ▸ hta) hck] at hr
      rw [Except.ok.injEq] at hr
      exact hr ▸ ⟨n + 1, rfl, by omega⟩

/-- C5: "clicks is a non-negative integer" is an invariant: any reducer
step from a state whose clicks field is a non-negative integer yields a
state whose clicks field is a non-negative integer, and every state
reachable by dispatching any action list from the initial state
`{clicks: 0}` satisfies it. -/
theorem counterReducer_clicks_nonneg_invariant :
    (∀ s a r n, jsGetField s "clicks" = Except.ok (JSVal.num n) → 0 ≤ n →
        counterReducer s a = Except.ok r →
        ∃ m, jsGetField r "clicks" = Except.ok (JSVal.num m) ∧ 0 ≤ m) ∧
    (∀ acts r,
        runActions (JSVal.obj [("clicks", JSVal.num 0)]) acts = Except.ok r →
        ∃ m, jsGetField r "clicks" = Except.ok (JSVal.num m) ∧ 0 ≤ m) := by
  constructor
  · exact counterReducer_step_nonneg
  · have key : ∀ acts s r n, jsGetField s "clicks" = Except.ok (JSVal.num n) →
        0 ≤ n → runActions s acts = Except.ok r →
        ∃ m, jsGetField r "clicks" = Except.ok (JSVal.num m) ∧ 0 ≤ m := by
      intro acts
      induction acts with
      | nil =>
        intro s r n hs hn hr
        rw [show runActions s [] = Except.ok s from rfl, Except.ok.injEq] at hr
        exact hr ▸ ⟨n, hs, hn⟩
      | cons a rest ih =>
        intro s r n hs hn hr
        cases hstep : counterReducer s a with
        | error e => simp [runActions, hstep] at hr
        | ok s2 =>
          simp only [runActions, hstep] at hr
          obtain ⟨m, hm, hmn⟩ := counterReducer_step_nonneg s a s2 n hs hn hstep
          exact ih s2 r m hm hmn hr
    intro acts r hr
    exact key acts (JSVal.obj [("clicks", JSVal.num 0)]) r 0 rfl le_rfl hr

theorem counterReducer_clicks_nonneg_invariant_witness :
    ∃ m, jsGetField (JSVal.obj [("clicks", JSVal.num (2 + 1))]) "clicks"
        = Except.ok (JSVal.num m) ∧ 0 ≤ m :=
  counterReducer_clicks_nonneg_invariant.1
    (JSVal.obj [("clicks", JSVal.num 2)]) incAction
    (JSVal.obj [("clicks", JSVal.num (2 + 1))]) 2 rfl (by norm_num) rfl

/-- C6: under the heap-explicit semantics, the reducer never mutates any
pre-existing heap cell (in particular the input state object is left
unchanged), and on the INCREASE_COUNT branch the returned value is a
freshly allocated reference, not a modification of the input state. -/
theorem counterReducerH_no_inplace_mutation
    (h : Heap) (s a : HVal) (h2 : Heap) (v : HVal)
    (hr : counterReducerH h s a = Except.ok (h2, v)) :
    (∀ r, r < h.length → h2.get? r = h.get? r) ∧
    (getFieldH h a "type" = Except.ok (HVal.str "INCREASE_COUNT") →
      ∃ j, v = HVal.ref j ∧ h.length ≤ j) := by
  obtain ⟨t, ht⟩ := seedStateH_fst h s
  cases hta : getFieldH (seedStateH h s).1 a "type" with
  | error e => simp [counterReducerH, hta] at hr
  | ok ty =>
    cases hinc : isIncreaseTypeH ty with
    | false =>
      have hred : counterReducerH h s a = Except.ok (seedStateH h s) := by
        simp only [counterReducerH]
        rw [hta]
        simp [hinc]
      rw [hred, Except.ok.injEq] at hr
      have hh2 : (seedStateH h s).1 = h2 := congrArg Prod.fst hr
      have hv : (seedStateH h s).2 = v := congrArg Prod.snd hr
      constructor
      · intro r hrlt
        rw [← hh2, ht, getq_append h t r hrlt]
      · intro htaorig
        have hext := getFieldH_append_inc h t a htaorig
        rw [ht, hext, Except.ok.injEq] at hta
        rw [← hta] at hinc
        simp [isIncreaseTypeH] at hinc
    | true =>
      cases hck : getFieldH (seedStateH h s).1 (seedStateH h s).2 "clicks" with
      | error e =>
        have hred : counterReducerH h s a = Except.error e := by
          simp only [counterReducerH]
          rw [hta]
          simp [hinc, hck]
        rw [hred] at hr
        exact absurd hr (by simp)
      | ok c =>
        have hred : counterReducerH h s a
            = Except.ok ((seedStateH h s).1 ++ [[("clicks", hPlusOne c)]],
              HVal.ref (seedStateH h s).1.length) := by
          simp only [counterReducerH]
          rw [hta]
          simp [hinc, hck]
        rw [hred, Except.ok.injEq] at hr
        have hh2 : (seedStateH h s).1 ++ [[("clicks", hPlusOne c)]] = h2 :=
          congrArg Prod.fst hr
        have hv : HVal.ref (seedStateH h s).1.length = v :=
          congrArg Prod.snd hr
        constructor
        · intro r hrlt
          rw [← hh2, ht, List.append_assoc]
          exact getq_append h (t ++ [[("clicks", hPlusOne c)]]) r hrlt
        · refine fun _ => ⟨(seedStateH h s).1.length, hv.symm, ?_⟩
          rw [ht, List.length_append]
          omega

theorem counterReducerH_no_inplace_mutation_witness :
    ∃ j, HVal.ref 2 = HVal.ref j ∧ 2 ≤ j :=
  (counterReducerH_no_inplace_mutation
    [[("clicks", HVal.num 0)], [("type", HVal.str "INCREASE_COUNT")]]
    (HVal.ref 0) (HVal.ref 1)
    ([[("clicks", HVal.num 0)], [("type", HVal.str "INCREASE_COUNT")]]
      ++ [[("clicks", HVal.num 1)]])
    (HVal.ref 2) rfl).2 rfl

/-- C7: the reducer is deterministic: two invocations on the same
state and action pair produce equal results. -/
theorem counterReducer_deterministic (s a : JSVal)
    (r1 r2 : Except String JSVal)
    (h1 : counterReducer s a = r1) (h2 : counterReducer s a = r2) :
    r1 = r2 :=
  h1.symm.trans h2

theorem counterReducer_deterministic_witness :
    (Except.ok (JSVal.obj [("clicks", JSVal.num 1)]) : Except String JSVal)
      = Except.ok (JSVal.obj [("clicks", JSVal.num 1)]) :=
  counterReducer_deterministic (JSVal.obj [("clicks", JSVal.num 0)])
    incAction _ _ rfl rfl

/-- C8 counterexample: with the non-null object action
`{type: "INCREASE_COUNT"}` and the state `null`, the reducer throws a
TypeError reading `state.clicks` (a `null` state does not trigger the
default parameter), so the reducer is not total over every state under
the stated precondition on the action alone. -/
theorem counterReducer_null_state_throws :
    counterReducer JSVal.null (JSVal.obj [("type", JSVal.str "INCREASE_COUNT")])
      = Except.error "TypeError" := rfl

/-- C8 (amended): the reducer reads `action.type` unconditionally, so it
requires the action to support field access (here: a non-null object);
under that precondition it is total and never errors for every state
except `null` — including `undefined`, which the default parameter
seeds. -/
theorem counterReducer_total_on_nonnull_state
    (s : JSVal) (l : List (String × JSVal)) (hs : s ≠ JSVal.null) :
    ∃ r, counterReducer s (JSVal.obj l) = Except.ok r := by
  have hta : jsGetField (JSVal.obj l) "type"
      = Except.ok (lookupField l "type") := rfl
  cases hinc : isIncreaseType (lookupField l "type") with
  | false =>
    exact ⟨seedState s, by simp [counterReducer, hta, hinc]⟩
  | true =>
    have hck : ∃ c, jsGetField (seedState s) "clicks" = Except.ok c := by
      cases s with
      | undef => exact ⟨JSVal.num 0, rfl⟩
      | null => exact absurd rfl hs
      | nan => exact ⟨JSVal.undef, rfl⟩
      | num n => exact ⟨JSVal.undef, rfl⟩
      | str t => exact ⟨JSVal.undef, rfl⟩
      | bool b => exact ⟨JSVal.undef, rfl⟩
      | obj l2 => exact ⟨lookupField l2 "clicks", rfl⟩
    obtain ⟨c, hc⟩ := hck
    exact ⟨JSVal.obj [("clicks", jsPlusOne c)],
      by simp [counterReducer, hta, hinc, hc]⟩

theorem counterReducer_total_on_nonnull_state_witness :
    ∃ r, counterReducer JSVal.undef
        (JSVal.obj [("type", JSVal.str "INCREASE_COUNT")]) = Except.ok r :=
  counterReducer_total_on_nonnull_state JSVal.undef
    [("type", JSVal.str "INCREASE_COUNT")] (fun h => JSVal.noConfusion h)

/-- C9: on the INCREASE_COUNT branch the result contains exactly the
one field `clicks`: whatever extra fields the input object carried, the
returned object literal is `{clicks: state.clicks + 1}` and nothing
else. -/
theorem counterReducer_increase_drops_extra_fields
    (l : List (String × JSVal)) (a : JSVal)
    (hta : jsGetField a "type" = Except.ok (JSVal.str "INCREASE_COUNT")) :
    counterReducer (JSVal.obj l) a
      = Except.ok (JSVal.obj [("clicks", jsPlusOne (lookupField l "clicks"))]) := by
  have hck : jsGetField (seedState (JSVal.obj l)) "clicks"
      = Except.ok (lookupField l "clicks") := rfl
  simp [counterReducer, hta, isIncreaseType, hck]

theorem counterReducer_increase_drops_extra_fields_witness :
    counterReducer (JSVal.obj [("clicks", JSVal.num 3), ("extra", JSVal.str "x")])
        incAction
      = Except.ok (JSVal.obj [("clicks", JSVal.num (3 + 1))]) := by
  simpa [lookupField, jsPlusOne] using
    counterReducer_increase_drops_extra_fields
      [("clicks", JSVal.num 3), ("extra", JSVal.str "x")] incAction rfl

/-- C10: for a state with an integer clicks field and an action with a
readable type discriminator, the clicks field never decreases under the
reducer, and it increases — by exactly 1 — exactly when the action type
is the string "INCREASE_COUNT". -/
theorem counterReducer_clicks_monotone (s a ty : JSVal) (n : Int)
    (hs : jsGetField s "clicks" = Except.ok (JSVal.num n))
    (hta : jsGetField a "type" = Except.ok ty) :
    ∃ r m, counterReducer s a = Except.ok r ∧
      jsGetField r "clicks" = Except.ok (JSVal.num m) ∧
      n ≤ m ∧ (m = n + 1 ↔ ty = JSVal.str "INCREASE_COUNT") := by
  obtain ⟨l, rfl⟩ := jsGetField_num_is_obj s "clicks" n hs
  cases hinc : isIncreaseType ty with
  | false =>
    have hne : ty ≠ JSVal.str "INCREASE_COUNT" := by
      intro he
      rw [(isIncreaseType_eq_true ty).mpr he] at hinc
      exact absurd hinc (by decide)
    refine ⟨JSVal.obj l, n, ?_, hs, le_refl n, ?_⟩
    · rw [counterReducer_default _ _ ty hta hne]
      rfl
    · constructor
      · intro hm
        exact absurd hm (by omega)
      · intro he
        exact absurd he hne
  | true =>
    have hty2 : ty = JSVal.str "INCREASE_COUNT" :=
      (isIncreaseType_eq_true ty).mp hinc
    subst hty2
    have hck : jsGetField (seedState (JSVal.obj l)) "clicks"
        = Except.ok (JSVal.num n) := hs
    refine ⟨JSVal.obj [("clicks", JSVal.num (n + 1))], n + 1,
      counterReducer_inc_clicks _ _ n hta hck, rfl, by omega, by simp⟩

theorem counterReducer_clicks_monotone_witness :
    ∃ r m, counterReducer (JSVal.obj [("clicks", JSVal.num 4)]) incAction
        = Except.ok r ∧
      jsGetField r "clicks" = Except.ok (JSVal.num m) ∧
      4 ≤ m ∧ (m = 4 + 1 ↔ JSVal.str "INCREASE_COUNT"
        = JSVal.str "INCREASE_COUNT") :=
  counterReducer_clicks_monotone (JSVal.obj [("clicks", JSVal.num 4)])
    incAction (JSVal.str "INCREASE_COUNT") 4 rfl rfl
